import Mathlib

/-!
Shallow embedding of the school-closings lambda
(`src/aws/lambda/school_closings_lambda.py`) and proofs about it.

Modelling conventions:
* Strings are Lean `String`s; per-character work happens on `List Char`.
* Timestamps are `Int` (seconds).  A clock is an oracle `Nat → Int` giving the
  result of the n-th `get_eastern_time()` call of a run; formatting is elided.
* The persisted DynamoDB item is the `StormState` record.  Its
  `last_nonempty_time` field is `Option (Option Int)`: `none` models an absent
  or falsy stored value, `some none` a present but unparsable string
  (`datetime.fromisoformat` raises), `some (some t)` a value parsing to `t`.
* Regex matching of the two source patterns is abstracted: an extractor run is
  given the list of raw `(name, status)` capture pairs that `re.finditer`
  produced, in match order.  Everything downstream of the captures (entity
  decoding, tag stripping, trimming, the allow-list filter, the accept guard,
  per-entry time stamping, ordering) is embedded from the source.
* External effects (HTTP fetch, S3 upload, state load/save, SNS publish) are
  recorded as an ordered `Effect` trace; their outcomes are oracle inputs.
-/

namespace SchoolClosings

/-! ### Text normalizer: `strip_html_tags` and `decode_html_entities` -/

/-- Characters stripped by Python's `str.strip()` (ASCII whitespace). -/
def pyIsSpace (c : Char) : Bool :=
  c == ' ' || c == '\t' || c == '\n' || c == '\r' ||
    c == Char.ofNat 11 || c == Char.ofNat 12

/-- Python `str.strip()`: drop whitespace at both ends. -/
def trimList (l : List Char) : List Char :=
  (l.dropWhile pyIsSpace).rdropWhile pyIsSpace

/-- Scan for the first `'>'`; `.` in the pattern `<.*?>` is compiled without
`re.DOTALL`, so a newline before the `'>'` makes the match attempt fail. -/
def findTagEnd : List Char → Option (List Char)
  | [] => none
  | c :: rest =>
    if c = '>' then some rest
    else if c = '\n' then none
    else findTagEnd rest

/-- `re.sub('<.*?>', '', text)`: left-to-right scan, each `'<'` is removed
together with everything up to the nearest following `'>'` on the same line.
Fuel starts at the input length; every step consumes at least one character
and one unit of fuel, so the fuel never runs out. -/
def removeTagsGo : Nat → List Char → List Char
  | _, [] => []
  | 0, l => l
  | fuel + 1, c :: rest =>
    if c = '<' then
      match findTagEnd rest with
      | some rest' => removeTagsGo fuel rest'
      | none => c :: removeTagsGo fuel rest
    else
      c :: removeTagsGo fuel rest

def removeTags (l : List Char) : List Char :=
  removeTagsGo l.length l

/-- Variant of `findTagEnd` in which `.` also matches newlines (`re.DOTALL`);
used only to state the spec's reading of the tag pattern. -/
def findTagEndDotAll : List Char → Option (List Char)
  | [] => none
  | c :: rest => if c = '>' then some rest else findTagEndDotAll rest

def removeTagsDotAllGo : Nat → List Char → List Char
  | _, [] => []
  | 0, l => l
  | fuel + 1, c :: rest =>
    if c = '<' then
      match findTagEndDotAll rest with
      | some rest' => removeTagsDotAllGo fuel rest'
      | none => c :: removeTagsDotAllGo fuel rest
    else
      c :: removeTagsDotAllGo fuel rest

def removeTagsDotAll (l : List Char) : List Char :=
  removeTagsDotAllGo l.length l

/-- Python `str.replace(pat, rep)` for a non-empty `pat`: leftmost match is
replaced, scanning resumes after the inserted replacement.  (The entity table
only contains non-empty patterns, so the empty-pattern branch is inert.) -/
def replaceGo (pat rep : List Char) : Nat → List Char → List Char
  | _, [] => []
  | 0, l => l
  | fuel + 1, c :: rest =>
    if pat.isPrefixOf (c :: rest) && !pat.isEmpty then
      rep ++ replaceGo pat rep fuel ((c :: rest).drop pat.length)
    else
      c :: replaceGo pat rep fuel rest

def replaceList (pat rep l : List Char) : List Char :=
  replaceGo pat rep l.length l

/-- The fixed entity table of `decode_html_entities`, in dict insertion
order. -/
def entityTable : List (List Char × List Char) :=
  [("&amp;".toList, "&".toList),
   ("&lt;".toList, "<".toList),
   ("&gt;".toList, ">".toList),
   ("&quot;".toList, "\"".toList),
   ("&#39;".toList, "\'".toList),
   ("&nbsp;".toList, " ".toList)]

def decodeList (l : List Char) : List Char :=
  entityTable.foldl (fun acc pr => replaceList pr.1 pr.2 acc) l

/-- `decode_html_entities` on strings. -/
def decode_html_entities (text : String) : String :=
  String.mk (decodeList text.toList)

/-- `strip_html_tags`: remove `<.*?>` matches, then `.strip()`. -/
def strip_html_tags (text : String) : String :=
  String.mk (trimList (removeTags text.toList))

/-- The normalization applied to each captured group in
`get_closings_from_source`:
`strip_html_tags(decode_html_entities(raw)).strip()`. -/
def cleanText (raw : String) : String :=
  String.mk (trimList ((strip_html_tags (decode_html_entities raw)).toList))

/-- Modelled from the spec's words for C3: tag removal first (with the tag
pattern spanning newlines), then entity decoding, then trim. -/
def spec_normalize (raw : String) : String :=
  String.mk (trimList (decodeList (removeTagsDotAll raw.toList)))

/-! ### Allow-list filter -/

/-- `SCHOOL_FILTER`, verbatim. -/
def SCHOOL_FILTER : List String :=
  ["gengras", "oak hill", "solterra", "partnership", "edadvance", "aces",
   "aspire", "naugatuck public", "naugatuck schools", "southington public",
   "southington schools", "hope academy", "bridges of aces", "bristol public",
   "bristol schools", "winsted public", "winsted schools", "terryville",
   "terryville schools", "plymouth", "plymouth schools", "canton public",
   "canton schools"]

/-- Python's `needle in hay` substring test. -/
def pyIn (needle : List Char) : List Char → Bool
  | [] => needle.isEmpty
  | c :: rest => needle.isPrefixOf (c :: rest) || pyIn needle rest

/-- Python `str.lower()` (ASCII range suffices for this data). -/
def strLower (s : String) : String :=
  String.mk (s.toList.map Char.toLower)

/-- `any(school.lower() in clean_name.lower() for school in SCHOOL_FILTER)`. -/
def shouldInclude (cleanName : String) : Bool :=
  SCHOOL_FILTER.any fun school =>
    pyIn (strLower school).toList (strLower cleanName).toList

/-! ### Source extractor -/

/-- One entry of the published snapshot (`{"Name", "Status", "UpdateTime",
"Source"}`); `UpdateTime` is the clock reading taken when the entry was
appended. -/
structure ClosingEntry where
  Name : String
  Status : String
  UpdateTime : Int
  Source : String
deriving DecidableEq

/-- The accept step of the per-match loop body of `get_closings_from_source`
(identical in the WFSB and NBC branches): normalize both captures, then keep
the pair only if the filter matches and
`clean_name and clean_status and '<' not in clean_name`. -/
def acceptPair (rawName rawStatus : String) : Option (String × String) :=
  let cleanName := cleanText rawName
  let cleanStatus := cleanText rawStatus
  if shouldInclude cleanName && (cleanName != "") && (cleanStatus != "") &&
      !(cleanName.toList.contains '<') then
    some (cleanName, cleanStatus)
  else
    none

/-- The per-source extraction loop over the raw capture pairs produced by
`re.finditer`, threading the clock-call counter: each *accepted* pair calls
`get_eastern_time()` once for its `UpdateTime`.  Returns the entries in match
order together with the next clock index. -/
def extractSource (sourceName : String) (clk : Nat → Int) :
    List (String × String) → Nat → List ClosingEntry × Nat
  | [], k => ([], k)
  | (rawName, rawStatus) :: rest, k =>
    match acceptPair rawName rawStatus with
    | some (n, s) =>
      let r := extractSource sourceName clk rest (k + 1)
      ({ Name := n, Status := s, UpdateTime := clk k, Source := sourceName } :: r.1,
       r.2)
    | none => extractSource sourceName clk rest k

/-! ### Storm state machine -/

/-- The persisted notification state (minus the constant `id` partition key).
`last_nonempty_time`: `none` = absent/falsy, `some none` = present but not
ISO-parsable, `some (some t)` = parses to time `t`. -/
structure StormState where
  notified : Bool
  last_nonempty_time : Option (Option Int)
deriving DecidableEq

/-- `should_reset_notification(state, now_eastern, reset_hours)`. -/
def should_reset_notification (state : StormState) (now : Int)
    (resetHours : Int) : Bool :=
  match state.last_nonempty_time with
  | none => true
  | some none => true
  | some (some t) => decide (resetHours * 3600 ≤ now - t)

/-- Result of one pass through the notification logic of `lambda_handler`:
the state that will be persisted, and whether `send_notification` was
called. -/
structure StepResult where
  next : StormState
  attempted : Bool
deriving DecidableEq

/-- The notification block of `lambda_handler` (the storm state machine),
with the outcome of `send_notification` supplied as the oracle
`sendOutcome`. -/
def stormStep (entries : List ClosingEntry) (prior : StormState) (now : Int)
    (sendOutcome : Bool) : StepResult :=
  if entries.length > 0 then
    let st : StormState := { prior with last_nonempty_time := some (some now) }
    if !prior.notified then
      { next := if sendOutcome then { st with notified := true } else st,
        attempted := true }
    else
      { next := st, attempted := false }
  else
    if prior.notified && should_reset_notification prior now 4 then
      { next := { prior with notified := false }, attempted := false }
    else
      { next := prior, attempted := false }

/-! ### Run orchestrator (`lambda_handler`) -/

def nbc_url : String := "https://www.nbcconnecticut.com/weather/school-closings/"

def wfsb_url : String :=
  "https://webpubcontent.gray.tv/wfsb/xml/WFSBclosings.html?app_data=referer_override%3D"

/-- Externally visible side effects of one run, in program order. -/
inductive Effect where
  | fetch (url sourceName : String)
  | s3Upload
  | loadState
  | notify
  | saveState (st : StormState)
deriving DecidableEq

/-- The JSON body returned to the caller (`lastUpdated` plus the entries
array); headers are constant and elided. -/
structure Payload where
  lastUpdated : Int
  entries : List ClosingEntry
deriving DecidableEq

structure Response where
  statusCode : Nat
  body : Payload
deriving DecidableEq

/-- Oracle inputs of one invocation: the event flag, the raw capture pairs
each source's regex produced, the clock, the loaded state, the SNS outcome,
and whether an unanticipated exception fires inside the `try` body. -/
structure HandlerInput where
  forceTest : Bool
  nbcPairs : List (String × String)
  wfsbPairs : List (String × String)
  clk : Nat → Int
  priorState : StormState
  sendOutcome : Bool
  crash : Bool

/-- `lambda_handler`, returning the response and the effect trace.  Control
flow follows the source: both sources are fetched first, then the `forceTest`
early return, then S3 upload, state load, the notification block, state save.
The `crash` branch models the top-level `except` handler; effects that
happened before the exception are not tracked. -/
def lambda_handler (inp : HandlerInput) : Response × List Effect :=
  if inp.crash then
    ({ statusCode := 200, body := { lastUpdated := inp.clk 0, entries := [] } },
     [])
  else
    let nbcR := extractSource "NBC Connecticut" inp.clk inp.nbcPairs 0
    let wfsbR := extractSource "WFSB" inp.clk inp.wfsbPairs nbcR.2
    let fetches : List Effect :=
      [Effect.fetch nbc_url "NBC Connecticut", Effect.fetch wfsb_url "WFSB"]
    if inp.forceTest then
      let now := inp.clk wfsbR.2
      let testEntry : ClosingEntry :=
        { Name := "Test School", Status := "Closed (test)", UpdateTime := now,
          Source := "Test Event" }
      ({ statusCode := 200, body := { lastUpdated := now, entries := [testEntry] } },
       fetches ++ [Effect.notify])
    else
      let now := inp.clk wfsbR.2
      let allEntries := nbcR.1 ++ wfsbR.1
      let step := stormStep allEntries inp.priorState now inp.sendOutcome
      ({ statusCode := 200, body := { lastUpdated := now, entries := allEntries } },
       fetches ++ [Effect.s3Upload, Effect.loadState] ++
         (if step.attempted then [Effect.notify] else []) ++
         [Effect.saveState step.next])

/-! ### Helper lemmas about trimming -/

theorem toList_mk (l : List Char) : (String.mk l).toList = l := rfl

theorem dropWhile_rdropWhile_self (p : Char → Bool) (u : List Char)
    (hu : u.dropWhile p = u) :
    (u.rdropWhile p).dropWhile p = u.rdropWhile p := by
  obtain ⟨t, ht⟩ := List.rdropWhile_prefix p u
  cases hz : u.rdropWhile p with
  | nil => rfl
  | cons c z' =>
    rw [hz] at ht
    have hpc : p c = false := by
      cases hc : p c with
      | false => rfl
      | true =>
        exfalso
        have hu2 : u = c :: (z' ++ t) := by rw [← ht]; simp
        have hdrop : u.dropWhile p = (z' ++ t).dropWhile p := by
          rw [hu2, List.dropWhile_cons, hc]
          simp
        have hlen : u.length ≤ (z' ++ t).length := by
          calc u.length = (u.dropWhile p).length := by rw [hu]
            _ = ((z' ++ t).dropWhile p).length := by rw [hdrop]
            _ ≤ (z' ++ t).length := (List.dropWhile_sublist p).length_le
        rw [hu2] at hlen
        simp at hlen
    rw [List.dropWhile_cons, hpc]
    simp

theorem trimList_idem (l : List Char) : trimList (trimList l) = trimList l := by
  unfold trimList
  rw [dropWhile_rdropWhile_self pyIsSpace (l.dropWhile pyIsSpace)
      (List.dropWhile_idempotent pyIsSpace l)]
  exact List.rdropWhile_idempotent _ _

/-! ### C1 -/

/-- C1: on a run with a non-empty snapshot, the next state's
`last_nonempty_time` is the current clock time; if the prior `notified` flag
is false, one alert is attempted and `notified` becomes true exactly when the
send is confirmed successful; if the prior flag is true, no alert is attempted
and `notified` stays true. -/
theorem stormStep_nonempty_run (entries : List ClosingEntry) (prior : StormState)
    (now : Int) (send : Bool) (h : entries ≠ []) :
    (stormStep entries prior now send).next.last_nonempty_time = some (some now) ∧
    (prior.notified = false →
      (stormStep entries prior now send).attempted = true ∧
      (stormStep entries prior now send).next.notified = send) ∧
    (prior.notified = true →
      (stormStep entries prior now send).attempted = false ∧
      (stormStep entries prior now send).next.notified = true) := by
  have hlen : entries.length > 0 := List.length_pos.mpr h
  unfold stormStep
  rw [if_pos hlen]
  cases hn : prior.notified <;> cases send <;> simp [hn]

def sampleEntry : ClosingEntry :=
  { Name := "Aces", Status := "Closed", UpdateTime := 0, Source := "WFSB" }

theorem stormStep_nonempty_run_witness :
    (stormStep [sampleEntry] { notified := false, last_nonempty_time := none }
        7 true).next.notified = true ∧
    (stormStep [sampleEntry] { notified := false, last_nonempty_time := none }
        7 true).next.last_nonempty_time = some (some 7) := by
  have h := stormStep_nonempty_run [sampleEntry]
    { notified := false, last_nonempty_time := none } 7 true (by simp)
  exact ⟨(h.2.1 rfl).2, h.1⟩

/-! ### C2 -/

/-- The claim's characterization of "the reset is due". -/
def resetDue (prior : StormState) (now : Int) : Prop :=
  prior.last_nonempty_time = none ∨ prior.last_nonempty_time = some none ∨
    ∃ t, prior.last_nonempty_time = some (some t) ∧ (4 : Int) * 3600 ≤ now - t

theorem should_reset_iff (prior : StormState) (now : Int) :
    should_reset_notification prior now 4 = true ↔ resetDue prior now := by
  unfold should_reset_notification resetDue
  rcases h : prior.last_nonempty_time with _ | _ | t <;> simp [h]

/-- C2: on a run with an empty snapshot, no alert is attempted,
`last_nonempty_time` is carried over unchanged, and `notified` is cleared
exactly when the prior flag is true and the reset is due (prior
`last_nonempty_time` absent or unparsable, or at least 4 hours old);
otherwise the state is unchanged. -/
theorem stormStep_empty_run (entries : List ClosingEntry) (prior : StormState)
    (now : Int) (send : Bool) (h : entries = []) :
    (stormStep entries prior now send).attempted = false ∧
    (stormStep entries prior now send).next.last_nonempty_time
      = prior.last_nonempty_time ∧
    (prior.notified = true → resetDue prior now →
      (stormStep entries prior now send).next = { prior with notified := false }) ∧
    (prior.notified = true → ¬resetDue prior now →
      (stormStep entries prior now send).next = prior) ∧
    (prior.notified = false → (stormStep entries prior now send).next = prior) := by
  subst h
  unfold stormStep
  rw [if_neg (by simp)]
  cases hn : prior.notified with
  | false => simp [hn]
  | true =>
    cases hs : should_reset_notification prior now 4 with
    | false =>
      have hnd : ¬resetDue prior now := by
        intro hd
        have := (should_reset_iff prior now).mpr hd
        rw [hs] at this
        exact Bool.false_ne_true this
      simp [hn, hs, hnd]
    | true =>
      have hd : resetDue prior now := (should_reset_iff prior now).mp hs
      simp [hn, hs, hd]

theorem stormStep_empty_run_witness :
    (stormStep [] { notified := true, last_nonempty_time := some (some 0) }
        20000 true).next
      = { notified := false, last_nonempty_time := some (some 0) } := by
  have h := stormStep_empty_run []
    { notified := true, last_nonempty_time := some (some 0) } 20000 true rfl
  have hd : resetDue { notified := true, last_nonempty_time := some (some 0) }
      20000 := by
    right; right
    exact ⟨0, rfl, by norm_num⟩
  exact h.2.2.1 rfl hd

/-! ### C10 -/

/-- C10: for the same prior state, clock time and delivery outcome, any two
non-empty snapshots produce the same alert decision and the same next
persisted state — entry names, statuses and counts never influence the
decision. -/
theorem stormStep_noninterference (e1 e2 : List ClosingEntry)
    (prior : StormState) (now : Int) (send : Bool)
    (h1 : e1 ≠ []) (h2 : e2 ≠ []) :
    stormStep e1 prior now send = stormStep e2 prior now send := by
  unfold stormStep
  rw [if_pos (List.length_pos.mpr h1), if_pos (List.length_pos.mpr h2)]

def sampleEntryB : ClosingEntry :=
  { Name := "Oak Hill", Status := "Delayed", UpdateTime := 1,
    Source := "NBC Connecticut" }

theorem stormStep_noninterference_witness :
    stormStep [sampleEntry] { notified := false, last_nonempty_time := none } 3 true
      = stormStep [sampleEntry, sampleEntryB]
          { notified := false, last_nonempty_time := none } 3 true :=
  stormStep_noninterference _ _ _ _ _ (by simp) (by simp)

/-! ### C3 -/

/-- C3 counterexample: the claimed pipeline (tags removed before entity
decoding) disagrees with the code's pipeline on `"&lt;b&gt;x"`: the code
decodes first and then strips the decoded `<b>` as a tag, yielding `"x"`,
while the claimed order yields `"<b>x"`. -/
theorem normalize_order_cex :
    cleanText "&lt;b&gt;x" ≠ spec_normalize "&lt;b&gt;x" := by decide

/-- C3 amended: normalization first replaces the fixed entity table by
literal substitution in order, then removes `<...>` tag matches (shortest
match, not spanning newlines), then trims surrounding whitespace — so a
decoded `&lt;b&gt;` is stripped as a tag rather than surviving. -/
theorem normalize_pipeline_amended :
    (∀ s, cleanText s = String.mk (trimList (removeTags (decodeList s.toList)))) ∧
    cleanText "&lt;b&gt;x" = "x" := by
  constructor
  · intro s
    unfold cleanText strip_html_tags decode_html_entities
    rw [toList_mk, toList_mk, trimList_idem]
  · decide

/-! ### C4 -/

/-- C4 counterexample: the guard only checks the *name* for a leftover `<`.
The WFSB status capture `([^<]+)` can match `"&lt;x"` (it holds no literal
`<`), which decodes to `"<x"`; the lone `<` has no closing `>` so tag removal
keeps it, and the entry is yielded with a `<` in its status. -/
theorem extract_status_guard_cex :
    ((extractSource "WFSB" (fun _ => 0) [("Aces", "&lt;x")] 0).1.map
        fun e => e.Status) = ["<x"] ∧
    ("<x" : String).toList.contains '<' = true := by decide

/-- C4 amended: every entry the extractor yields has a non-empty normalized
name, a non-empty normalized status, and a name free of `<`; the status,
however, is not guarded against a remaining `<`. -/
theorem extract_entry_invariant (src : String) (clk : Nat → Int)
    (pairs : List (String × String)) (k : Nat) (e : ClosingEntry)
    (he : e ∈ (extractSource src clk pairs k).1) :
    e.Name ≠ "" ∧ e.Status ≠ "" ∧ e.Name.toList.contains '<' = false := by
  induction pairs generalizing k with
  | nil => simp [extractSource] at he
  | cons p rest ih =>
    obtain ⟨rawName, rawStatus⟩ := p
    cases hap : acceptPair rawName rawStatus with
    | none =>
      rw [extractSource] at he
      rw [hap] at he
      exact ih k he
    | some pr =>
      obtain ⟨n, s⟩ := pr
      rw [extractSource] at he
      rw [hap] at he
      simp only [List.mem_cons] at he
      rcases he with he | he
      · subst he
        simp only [acceptPair] at hap
        split at hap
        case isTrue hcond =>
          simp only [Bool.and_eq_true, bne_iff_ne, ne_eq,
            Bool.not_eq_true'] at hcond
          simp only [Option.some.injEq, Prod.mk.injEq] at hap
          obtain ⟨hn, hs⟩ := hap
          refine ⟨?_, ?_, ?_⟩
          · show n ≠ ""
            rw [← hn]; exact hcond.1.1.2
          · show s ≠ ""
            rw [← hs]; exact hcond.1.2
          · show n.toList.contains '<' = false
            rw [← hn]; exact hcond.2
        case isFalse => exact absurd hap (by simp)
      · exact ih _ he

theorem extract_entry_invariant_witness :
    (ClosingEntry.mk "Aces" "Closed" 0 "WFSB").Name ≠ "" ∧
    (ClosingEntry.mk "Aces" "Closed" 0 "WFSB").Status ≠ "" ∧
    (ClosingEntry.mk "Aces" "Closed" 0 "WFSB").Name.toList.contains '<'
      = false :=
  extract_entry_invariant "WFSB" (fun _ => 0) [("Aces", "Closed")] 0 _
    (by decide)

/-! ### C5 -/

def mergeCexInput : HandlerInput :=
  { forceTest := false, nbcPairs := [("Aces", "Closed")],
    wfsbPairs := [("Aces", "Open")], clk := fun _ => 0,
    priorState := { notified := false, last_nonempty_time := none },
    sendOutcome := true, crash := false }

/-- C5 counterexample: with one entry per source, the merged snapshot is
`[NBC entry, WFSB entry]` — `all_entries = nbc_entries + wfsb_entries` puts
NBC Connecticut first, not WFSB as claimed. -/
theorem merged_order_cex :
    ((lambda_handler mergeCexInput).1.body.entries.map fun e => e.Source)
      = ["NBC Connecticut", "WFSB"] ∧
    (["NBC Connecticut", "WFSB"] : List String)
      ≠ ["WFSB", "NBC Connecticut"] := by decide

/-- C5 amended: the merged snapshot places all NBC Connecticut entries before
all WFSB entries, each source's entries in extraction order (the two fetches
are sequential, so completion order cannot affect the merge). -/
theorem merged_order_amended (inp : HandlerInput) (hc : inp.crash = false)
    (hf : inp.forceTest = false) :
    (lambda_handler inp).1.body.entries
      = (extractSource "NBC Connecticut" inp.clk inp.nbcPairs 0).1
        ++ (extractSource "WFSB" inp.clk inp.wfsbPairs
              (extractSource "NBC Connecticut" inp.clk inp.nbcPairs 0).2).1 ∧
    (∀ src clk pairs k,
      ((extractSource src clk pairs k).1.map fun e => (e.Name, e.Status))
        = pairs.filterMap fun p => acceptPair p.1 p.2) := by
  constructor
  · simp [lambda_handler, hc, hf]
  · intro src clk pairs k
    induction pairs generalizing k with
    | nil => rfl
    | cons p rest ih =>
      obtain ⟨rn, rs⟩ := p
      cases hap : acceptPair rn rs with
      | none => simp [extractSource, hap, ih]
      | some pr =>
        obtain ⟨n, s⟩ := pr
        simp [extractSource, hap, ih]

def mergeWitnessInput : HandlerInput :=
  { forceTest := false, nbcPairs := [("Aces", "Closed")], wfsbPairs := [],
    clk := fun _ => 0,
    priorState := { notified := false, last_nonempty_time := none },
    sendOutcome := true, crash := false }

theorem merged_order_amended_witness :
    (lambda_handler mergeWitnessInput).1.body.entries
      = (extractSource "NBC Connecticut" mergeWitnessInput.clk
            mergeWitnessInput.nbcPairs 0).1
        ++ (extractSource "WFSB" mergeWitnessInput.clk
              mergeWitnessInput.wfsbPairs
              (extractSource "NBC Connecticut" mergeWitnessInput.clk
                mergeWitnessInput.nbcPairs 0).2).1 :=
  (merged_order_amended mergeWitnessInput rfl rfl).1

/-! ### C6 -/

def clockCexInput : HandlerInput :=
  { forceTest := false, nbcPairs := [("Aces", "Closed"), ("Aces", "Delayed")],
    wfsbPairs := [], clk := fun n => (n : Int),
    priorState := { notified := false, last_nonempty_time := none },
    sendOutcome := true, crash := false }

/-- C6 counterexample: `get_eastern_time()` is called once per accepted
entry, so two entries of the same run can carry different `UpdateTime`s when
the clock readings differ. -/
theorem snapshot_updateTime_cex :
    ((lambda_handler clockCexInput).1.body.entries.map fun e => e.UpdateTime)
      = [0, 1] ∧ (0 : Int) ≠ 1 := by decide

theorem extractSource_all_time (src : String) (clk : Nat → Int) (t : Int)
    (hclk : ∀ i, clk i = t) (pairs : List (String × String)) (k : Nat) :
    ((extractSource src clk pairs k).1.all fun e => e.UpdateTime == t)
      = true := by
  induction pairs generalizing k with
  | nil => rfl
  | cons p rest ih =>
    obtain ⟨rn, rs⟩ := p
    cases hap : acceptPair rn rs with
    | none => simp only [extractSource, hap]; exact ih k
    | some pr =>
      obtain ⟨n, s⟩ := pr
      simp only [extractSource, hap, List.all_cons]
      rw [hclk k]
      simp [ih]

/-- C6 amended: each entry is stamped with the clock reading taken when it
was created; whenever all clock readings of the run coincide (value `t`),
every entry of the run's snapshot carries `UpdateTime = t`. -/
theorem snapshot_updateTime_amended (inp : HandlerInput) (t : Int)
    (hclk : ∀ i, inp.clk i = t) :
    ((lambda_handler inp).1.body.entries.all fun e => e.UpdateTime == t)
      = true := by
  unfold lambda_handler
  cases hcr : inp.crash with
  | true => simp [hcr]
  | false =>
    cases hf : inp.forceTest with
    | true =>
      simp only [hcr, hf, Bool.false_eq_true, if_false, if_true]
      simp [hclk]
    | false =>
      simp only [hcr, hf, Bool.false_eq_true, if_false]
      simp [List.all_append, extractSource_all_time _ _ _ hclk]

def clockWitnessInput : HandlerInput :=
  { forceTest := false, nbcPairs := [("Aces", "Closed")],
    wfsbPairs := [("Aces", "Open")], clk := fun _ => 5,
    priorState := { notified := false, last_nonempty_time := none },
    sendOutcome := true, crash := false }

theorem snapshot_updateTime_amended_witness :
    ((lambda_handler clockWitnessInput).1.body.entries.all
        fun e => e.UpdateTime == 5) = true :=
  snapshot_updateTime_amended clockWitnessInput 5 (fun _ => rfl)

/-! ### C7 -/

def forceTestCexInput : HandlerInput :=
  { forceTest := true, nbcPairs := [], wfsbPairs := [], clk := fun _ => 0,
    priorState := { notified := false, last_nonempty_time := none },
    sendOutcome := true, crash := false }

/-- C7 counterexample: a `forceTest` invocation still fetches a source — the
two `get_closings_from_source` calls happen before the `forceTest` check. -/
theorem forceTest_fetch_cex :
    Effect.fetch nbc_url "NBC Connecticut"
      ∈ (lambda_handler forceTestCexInput).2 := by decide

/-- C7 amended: a `forceTest` run still fetches both sources (discarding the
results) but neither loads nor saves the persisted state, sends exactly one
synthetic notification, and returns a success response with the single
synthetic entry. -/
theorem forceTest_path_amended (inp : HandlerInput) (hf : inp.forceTest = true)
    (hc : inp.crash = false) :
    (lambda_handler inp).2
      = [Effect.fetch nbc_url "NBC Connecticut",
         Effect.fetch wfsb_url "WFSB", Effect.notify] ∧
    (lambda_handler inp).1.statusCode = 200 ∧
    ((lambda_handler inp).1.body.entries.map fun e => (e.Name, e.Status, e.Source))
      = [("Test School", "Closed (test)", "Test Event")] := by
  simp [lambda_handler, hf, hc]

theorem forceTest_path_amended_witness :
    (lambda_handler forceTestCexInput).2
      = [Effect.fetch nbc_url "NBC Connecticut",
         Effect.fetch wfsb_url "WFSB", Effect.notify] ∧
    (lambda_handler forceTestCexInput).1.statusCode = 200 ∧
    ((lambda_handler forceTestCexInput).1.body.entries.map
        fun e => (e.Name, e.Status, e.Source))
      = [("Test School", "Closed (test)", "Test Event")] :=
  forceTest_path_amended forceTestCexInput rfl rfl

/-! ### C8 -/

/-- C8: every invocation returns status 200 with a well-formed payload (the
`Payload` record always carries `lastUpdated` and an entries array), and the
run with an unanticipated internal error returns the degraded response with
an empty entries array instead of propagating the failure. -/
theorem handler_boundary_success (inp : HandlerInput) :
    (lambda_handler inp).1.statusCode = 200 ∧
    (lambda_handler { inp with crash := true }).1.statusCode = 200 ∧
    (lambda_handler { inp with crash := true }).1.body.entries = [] := by
  refine ⟨?_, by simp [lambda_handler], by simp [lambda_handler]⟩
  unfold lambda_handler
  cases hcr : inp.crash <;> cases hf : inp.forceTest <;> simp [hcr, hf]

/-! ### C9 -/

theorem isPrefixOf_eq_true (n h : List Char) :
    n.isPrefixOf h = true ↔ ∃ t, n ++ t = h := by
  induction n generalizing h with
  | nil => simp [List.isPrefixOf]
  | cons a as ih =>
    cases h with
    | nil => simp [List.isPrefixOf]
    | cons b bs => simp [List.isPrefixOf, ih, List.cons_eq_cons, and_comm]

theorem pyIn_iff (needle hay : List Char) :
    pyIn needle hay = true ↔ ∃ pre post, pre ++ needle ++ post = hay := by
  induction hay with
  | nil =>
    simp only [pyIn, List.isEmpty_iff]
    constructor
    · intro h; exact ⟨[], [], by simp [h]⟩
    · rintro ⟨pre, post, hp⟩
      rcases List.append_eq_nil.mp hp with ⟨h1, h2⟩
      exact (List.append_eq_nil.mp h1).2
  | cons c rest ih =>
    simp only [pyIn, Bool.or_eq_true]
    constructor
    · rintro (hp | hin)
      · obtain ⟨t, ht⟩ := (isPrefixOf_eq_true _ _).mp hp
        exact ⟨[], t, by simpa using ht⟩
      · obtain ⟨pre, post, hp⟩ := ih.mp hin
        exact ⟨c :: pre, post, by simp [hp]⟩
    · rintro ⟨pre, post, hp⟩
      cases pre with
      | nil =>
        left
        exact (isPrefixOf_eq_true _ _).mpr ⟨post, by simpa using hp⟩
      | cons d pre' =>
        right
        simp only [List.cons_append, List.cons.injEq] at hp
        exact ih.mpr ⟨pre', post, hp.2⟩

/-- C9: the allow-list filter accepts a name iff the lower-cased name
contains, as a substring, the lower-casing of at least one configured
fragment; in particular `"Bristol Public Schools"` is accepted (the list
holds `"bristol public"`). -/
theorem allowlist_substring_spec :
    (∀ name : String, shouldInclude name = true ↔
      ∃ frag ∈ SCHOOL_FILTER, ∃ pre post,
        pre ++ (strLower frag).toList ++ post = (strLower name).toList) ∧
    shouldInclude "Bristol Public Schools" = true := by
  constructor
  · intro name
    unfold shouldInclude
    rw [List.any_eq_true]
    constructor
    · rintro ⟨frag, hf, hin⟩
      exact ⟨frag, hf, (pyIn_iff _ _).mp hin⟩
    · rintro ⟨frag, hf, hsub⟩
      exact ⟨frag, hf, (pyIn_iff _ _).mpr hsub⟩
  · decide

end SchoolClosings
